import Mathlib

/-!
Shallow embedding of the backend state store of the `plane` controller
(`src/plane/src/database/backend.rs`), together with proofs about the
operations `update_status`, `status_stream`, `route_info_for_token`,
`update_keepalive` and `termination_candidates`.

The database state is modelled as explicit lists of rows; timestamps are
integers (seconds); SQL `NULL` columns are `Option`s.  Each operation is a
pure function from a `DBState` (plus the clock value `now` that the SQL
`now()` reads) to either an error or a new state, mirroring the body of the
corresponding Rust function statement by statement.
-/

namespace Plane

/-- Modelled from the spec: the `BackendStatus` enum and its total order
`Scheduled < Loading < Starting < Waiting < Ready < Terminating <
HardTerminating < Terminated` live in `src/plane/src/types.rs`, which is not
part of this extract; the order is taken from spec section 4.2. -/
inductive BackendStatus where
  | scheduled
  | loading
  | starting
  | waiting
  | ready
  | terminating
  | hardTerminating
  | terminated
deriving DecidableEq, Repr

/-- Numeric rank of a status in the total order of spec section 4.2. -/
def BackendStatus.toNat : BackendStatus → Nat
  | .scheduled => 0
  | .loading => 1
  | .starting => 2
  | .waiting => 3
  | .ready => 4
  | .terminating => 5
  | .hardTerminating => 6
  | .terminated => 7

instance : LE BackendStatus := ⟨fun a b => a.toNat ≤ b.toNat⟩

instance : LT BackendStatus := ⟨fun a b => a.toNat < b.toNat⟩

instance instDecidableLeBackendStatus (a b : BackendStatus) : Decidable (a ≤ b) :=
  inferInstanceAs (Decidable (a.toNat ≤ b.toNat))

instance instDecidableLtBackendStatus (a b : BackendStatus) : Decidable (a < b) :=
  inferInstanceAs (Decidable (a.toNat < b.toNat))

theorem BackendStatus.le_def (a b : BackendStatus) : a ≤ b ↔ a.toNat ≤ b.toNat := Iff.rfl

theorem BackendStatus.lt_def (a b : BackendStatus) : a < b ↔ a.toNat < b.toNat := Iff.rfl

theorem BackendStatus.le_refl (a : BackendStatus) : a ≤ a := Nat.le_refl _

theorem BackendStatus.le_trans {a b c : BackendStatus} (h1 : a ≤ b) (h2 : b ≤ c) : a ≤ c :=
  Nat.le_trans h1 h2

theorem BackendStatus.le_of_not_lt {a b : BackendStatus} (h : ¬ a < b) : b ≤ a :=
  Nat.not_lt.mp h

/-- `Terminated` is the greatest element of the status order. -/
theorem BackendStatus.le_terminated (s : BackendStatus) : s ≤ BackendStatus.terminated := by
  cases s <;> decide

/-- Any status at least `Terminated` is `Terminated`. -/
theorem BackendStatus.eq_terminated_of_ge {s : BackendStatus}
    (h : BackendStatus.terminated ≤ s) : s = BackendStatus.terminated := by
  cases s <;> first | rfl | exact absurd h (by decide)

/-- One row of the `backend` table (see the columns read and written in
`backend.rs`: `id`, `cluster`, `last_status`, `last_status_time`,
`last_keepalive`, `drone_id`, `expiration_time`, `allowed_idle_seconds`,
`cluster_address`, `exit_code`). -/
structure BackendRow where
  id : String
  cluster : String
  lastStatus : BackendStatus
  lastStatusTime : Int
  lastKeepalive : Int
  droneId : Int
  expirationTime : Option Int
  allowedIdleSeconds : Option Int
  clusterAddress : Option String
  exitCode : Option Int
deriving DecidableEq, Repr

/-- One row of the append-only `backend_status` log: `(id serial, backend_id,
status, created_at)`. -/
structure StatusRow where
  id : Nat
  backendId : String
  status : BackendStatus
  createdAt : Int
deriving DecidableEq, Repr

/-- One row of the `backend_key` table.  As used in `backend.rs`, its primary
key `id` is the backend id (`delete from backend_key where id = $1` is passed
the backend name); the key-tuple columns come from spec section 3. -/
structure BackendKeyRow where
  id : String
  keyCluster : String
  keyNamespace : String
  keyName : String
  keyTag : String
deriving DecidableEq, Repr

/-- One row of the `token` table, with the columns read by
`route_info_for_token`. -/
structure TokenRow where
  token : String
  backendId : String
  username : Option String
  auth : String
  secretToken : String
deriving DecidableEq, Repr

/-- The persistent state manipulated by `BackendDatabase`.  `nextStatusId` is
the serial sequence backing `backend_status.id`. -/
structure DBState where
  backends : List BackendRow
  backendStatus : List StatusRow
  backendKeys : List BackendKeyRow
  tokens : List TokenRow
  nextStatusId : Nat
deriving DecidableEq, Repr

/-- Errors surfaced by the store operations.  `rowNotFound` embeds
`sqlx::Error::RowNotFound`; `invalidTransition` embeds the database-level
rejection of a non-monotone status transition. -/
inductive DbError where
  | rowNotFound
  | invalidTransition
deriving DecidableEq, Repr

/-- Embeds `update_status` (`backend.rs` lines 148-204).  Inside one
transaction it emits the status on the bus, runs
`update backend set last_status = $2, last_status_time = now(),
cluster_address = $3, exit_code = $4 where id = $1` (note: `cluster_address`
and `exit_code` are assigned unconditionally, so passing `None` stores SQL
`NULL`), appends a `backend_status` row, and, when the status is
`Terminated`, deletes the `backend_key` row with `id = $1`.  An error rolls
the transaction back, leaving the state unchanged, so errors return no state.

Modelled from the spec: the failure modes are enforced by the database schema
(the migrations are not part of this extract) — "Fails with `not-found` if
the backend id is unknown; fails with `invalid-transition` if the new status
would violate monotonicity (enforced by the DB via a CHECK or a preceding
`SELECT ... FOR UPDATE`)", where a transition to a status strictly less than
the current `last_status` violates monotonicity (spec section 3, invariant 2). -/
def update_status (st : DBState) (backend : String) (status : BackendStatus)
    (address : Option String) (exitCode : Option Int) (now : Int) :
    Except DbError DBState :=
  match st.backends.find? (fun b => b.id == backend) with
  | none => .error .rowNotFound
  | some row =>
    if status < row.lastStatus then .error .invalidTransition
    else
      .ok { st with
        backends := st.backends.map (fun b =>
          if b.id == backend then
            { b with
              lastStatus := status
              lastStatusTime := now
              clusterAddress := address
              exitCode := exitCode }
          else b)
        backendStatus := st.backendStatus ++ [⟨st.nextStatusId, backend, status, now⟩]
        backendKeys :=
          if status == BackendStatus.terminated then
            st.backendKeys.filter (fun k => k.id != backend)
          else st.backendKeys
        nextStatusId := st.nextStatusId + 1 }

/-- Embeds `update_keepalive` (`backend.rs` lines 292-310): runs
`update backend set last_keepalive = now() where id = $1` and returns
`sqlx::Error::RowNotFound` when zero rows were affected. -/
def update_keepalive (st : DBState) (backend : String) (now : Int) :
    Except DbError DBState :=
  if st.backends.any (fun b => b.id == backend) then
    .ok { st with
      backends := st.backends.map (fun b =>
        if b.id == backend then { b with lastKeepalive := now } else b) }
  else
    .error .rowNotFound

/-- One element of the result of `termination_candidates`. -/
structure TerminationCandidate where
  backendId : String
  expirationTime : Option Int
  lastKeepalive : Int
  allowedIdleSeconds : Option Int
  asOf : Int
deriving DecidableEq, Repr

/-- The `where` condition of the `termination_candidates` query,
`now() - last_keepalive > make_interval(secs => allowed_idle_seconds)
or now() > expiration_time`, under SQL three-valued logic: a comparison
against a `NULL` operand is unknown, and a row is selected only when the
whole condition is true. -/
def shouldTerminate (b : BackendRow) (now : Int) : Bool :=
  (match b.allowedIdleSeconds with
    | some s => decide (s < now - b.lastKeepalive)
    | none => false)
  || (match b.expirationTime with
    | some t => decide (t < now)
    | none => false)

/-- Embeds `termination_candidates` (`backend.rs` lines 312-352): selects the
backends of the given drone whose `last_status` differs from `Terminated` and
which satisfy `shouldTerminate`, each carrying `as_of = now()` read by the
same query. -/
def termination_candidates (st : DBState) (droneId : Int) (now : Int) :
    List TerminationCandidate :=
  (st.backends.filter (fun b =>
      b.droneId == droneId
      && b.lastStatus != BackendStatus.terminated
      && shouldTerminate b now)).map
    (fun b => ⟨b.id, b.expirationTime, b.lastKeepalive, b.allowedIdleSeconds, now⟩)

/-- The route information returned to the proxy.  The address type is a
parameter because the Rust code parses the stored string with the standard
library's `str::parse::<SocketAddr>`, which is external code; the parser is
passed in as a function. -/
structure RouteInfo (Addr : Type) where
  backendId : String
  address : Addr
  secretToken : String
  user : Option String
  userData : Option String

/-- Embeds `route_info_for_token` (`backend.rs` lines 245-290): a
`select ... from token left join backend on backend.id = token.backend_id
where token = $1 limit 1`, returning `None` when no token row matches, when
the joined `cluster_address` is `NULL` (including the case where the left
join found no backend row), or when the address fails to parse; otherwise the
`RouteInfo` built from the row. -/
def route_info_for_token (Addr : Type) (parse : String → Option Addr)
    (st : DBState) (token : String) : Option (RouteInfo Addr) :=
  match st.tokens.find? (fun t => t.token == token) with
  | none => none
  | some t =>
    match (st.backends.find? (fun b => b.id == t.backendId)).bind
        (fun b => b.clusterAddress) with
    | none => none
    | some a =>
      match parse a with
      | none => none
      | some address =>
        some ⟨t.backendId, address, t.secretToken, t.username, some t.auth⟩

/-- One item yielded by the status stream. -/
structure TimestampedBackendStatus where
  time : Int
  status : BackendStatus
deriving DecidableEq, Repr

/-- One event delivered by the bus subscription on
`(backend_state, backend_name)`. -/
structure LiveEvent where
  timestamp : Int
  payload : BackendStatus
deriving DecidableEq, Repr

/-- Ordering of `backend_status` rows by their serial `id`, used to embed
`order by id asc`. -/
def rowIdLe (a b : StatusRow) : Prop := a.id ≤ b.id

instance : DecidableRel rowIdLe := fun a b => Nat.decLe a.id b.id

instance : IsTotal StatusRow rowIdLe := ⟨fun a b => Nat.le_total a.id b.id⟩

instance : IsTrans StatusRow rowIdLe := ⟨fun _ _ _ h1 h2 => Nat.le_trans h1 h2⟩

/-- The snapshot query of `status_stream` (`backend.rs` lines 50-63):
`select id, created_at, status from backend_status where backend_id = $1
order by id asc`. -/
def statusSnapshot (st : DBState) (backend : String) : List StatusRow :=
  List.insertionSort rowIdLe (st.backendStatus.filter (fun r => r.backendId == backend))

/-- The first loop of the stream generator: each historical row is yielded as
a `TimestampedBackendStatus`. -/
def streamHistory (snapshot : List StatusRow) : List TimestampedBackendStatus :=
  snapshot.map (fun r => ⟨r.createdAt, r.status⟩)

/-- The value of the generator's `last_status` variable after the historical
loop: the status of the last yielded row, `none` when the snapshot is empty.
It is not modified afterwards. -/
def lastStatusAfterHistory (snapshot : List StatusRow) : Option BackendStatus :=
  (snapshot.map StatusRow.status).getLast?

/-- The second loop of the stream generator: every subscription event whose
payload is less than or equal to `last_status` is skipped (`continue`), the
rest are yielded.  When the snapshot was empty no event is skipped. -/
def streamLive (lastStatus : Option BackendStatus) (events : List LiveEvent) :
    List TimestampedBackendStatus :=
  match lastStatus with
  | none => events.map (fun e => ⟨e.timestamp, e.payload⟩)
  | some ls =>
    (events.filter (fun e => !(decide (e.payload ≤ ls)))).map
      (fun e => ⟨e.timestamp, e.payload⟩)

/-- Embeds `status_stream` (`backend.rs` lines 42-107) as a function of the
database state and the finite list of events the bus subscription delivers.
The subscription is opened before the snapshot is read, so `live` may contain
events whose writes are already part of the snapshot. -/
def status_stream (st : DBState) (backend : String) (live : List LiveEvent) :
    List TimestampedBackendStatus :=
  streamHistory (statusSnapshot st backend)
    ++ streamLive (lastStatusAfterHistory (statusSnapshot st backend)) live

/-! Concrete example states used by witnesses and counterexamples. -/

/-- A backend row in status `Scheduled` with no address and no exit code. -/
def exRowB : BackendRow :=
  ⟨"b", "c", .scheduled, 0, 0, 1, none, none, none, none⟩

/-- A store holding the single backend `"b"` just after creation. -/
def exState0 : DBState :=
  ⟨[exRowB], [⟨1, "b", .scheduled, 0⟩], [], [], 2⟩

/-- A backend row that has already reported a cluster address and exit code. -/
def exRowAddr : BackendRow :=
  ⟨"b", "c", .scheduled, 0, 0, 1, none, none, some "1.2.3.4:80", some 3⟩

/-- A store holding the single backend `"b"` with an address on record. -/
def exStateAddr : DBState :=
  ⟨[exRowAddr], [⟨1, "b", .scheduled, 0⟩], [], [], 2⟩

/-- A backend row in status `Ready`. -/
def exRowReady : BackendRow :=
  ⟨"b", "c", .ready, 0, 0, 1, none, none, none, none⟩

/-- A store holding the single backend `"b"` in status `Ready`. -/
def exStateReady : DBState :=
  ⟨[exRowReady], [⟨1, "b", .ready, 0⟩], [], [], 2⟩

/-! Claim C1. -/

/-- C1: statuses only advance.  For a backend present in the store, an
`update_status` whose new status is strictly below the current `last_status`
fails with `invalid-transition` (so nothing commits), and whenever
`update_status` succeeds the previous `last_status` is at most the new
status, which is the status of the single row appended to the log. -/
theorem update_status_monotone (st : DBState) (backend : String)
    (status : BackendStatus) (address : Option String) (exitCode : Option Int)
    (now : Int) (row : BackendRow)
    (hfind : st.backends.find? (fun b => b.id == backend) = some row) :
    (status < row.lastStatus →
      update_status st backend status address exitCode now
        = Except.error DbError.invalidTransition)
    ∧ (∀ st', update_status st backend status address exitCode now = Except.ok st' →
        row.lastStatus ≤ status
        ∧ st'.backendStatus
            = st.backendStatus ++ [⟨st.nextStatusId, backend, status, now⟩]) := by
  constructor
  · intro hlt
    simp [update_status, hfind, hlt]
  · intro st' hok
    by_cases hlt : status < row.lastStatus
    · simp [update_status, hfind, hlt] at hok
    · refine ⟨BackendStatus.le_of_not_lt hlt, ?_⟩
      simp [update_status, hfind, hlt] at hok
      rw [← hok]

/-- Witness for C1: in a store whose backend `"b"` is `Ready`, a transition
back to `Loading` is rejected with `invalid-transition`. -/
theorem update_status_monotone_witness :
    update_status exStateReady "b" BackendStatus.loading none none 9
      = Except.error DbError.invalidTransition :=
  (update_status_monotone exStateReady "b" BackendStatus.loading none none 9
    exRowReady rfl).1 (by decide)

/-! Claim C2. -/

/-- C2: when no backend row matches the given name, `update_status` fails
with the not-found error; since the transaction rolls back, no state is
produced and the store is unchanged. -/
theorem update_status_not_found (st : DBState) (backend : String)
    (status : BackendStatus) (address : Option String) (exitCode : Option Int)
    (now : Int)
    (hfind : st.backends.find? (fun b => b.id == backend) = none) :
    update_status st backend status address exitCode now
      = Except.error DbError.rowNotFound := by
  simp [update_status, hfind]

/-- Witness for C2: updating a backend in an empty store is a not-found
error. -/
theorem update_status_not_found_witness :
    update_status ⟨[], [], [], [], 1⟩ "nope" BackendStatus.ready none none 4
      = Except.error DbError.rowNotFound :=
  update_status_not_found ⟨[], [], [], [], 1⟩ "nope" BackendStatus.ready none none 4 rfl

/-! Claim C6. -/

/-- Helper: `find?` for a fixed name commutes with a conditional update that
preserves the `id` field. -/
theorem find?_map_ite (l : List BackendRow) (name : String)
    (f : BackendRow → BackendRow) (hf : ∀ b, (f b).id = b.id) :
    (l.map (fun b => if b.id = name then f b else b)).find? (fun b => b.id == name)
      = (l.find? (fun b => b.id == name)).map f := by
  induction l with
  | nil => rfl
  | cons b t ih =>
    by_cases hb : b.id = name
    · have e1 : List.find? (fun x => x.id == name)
          (f b :: t.map (fun y => if y.id = name then f y else y)) = some (f b) :=
        List.find?_cons_of_pos _ (by simp [hf b, hb])
      have e2 : List.find? (fun x => x.id == name) (b :: t) = some b :=
        List.find?_cons_of_pos _ (by simp [hb])
      simp only [List.map_cons, if_pos hb]
      rw [e1, e2]
      rfl
    · have e1 : List.find? (fun x => x.id == name)
          (b :: t.map (fun y => if y.id = name then f y else y))
          = List.find? (fun x => x.id == name)
              (t.map (fun y => if y.id = name then f y else y)) :=
        List.find?_cons_of_neg _ (by simp [hb])
      have e2 : List.find? (fun x => x.id == name) (b :: t)
          = List.find? (fun x => x.id == name) t :=
        List.find?_cons_of_neg _ (by simp [hb])
      simp only [List.map_cons, if_neg hb]
      rw [e1, e2, ih]

/-- C6 counterexample: the backend of `exStateAddr` has a cluster address and
an exit code on record; a successful `update_status` with no address and no
exit code clears both (they become SQL `NULL`), rather than leaving them
unchanged. -/
theorem update_status_c6_counterexample :
    exStateAddr.backends.map (fun b => (b.clusterAddress, b.exitCode))
      = [(some "1.2.3.4:80", some 3)]
    ∧ (update_status exStateAddr "b" BackendStatus.ready none none 5).map
        (fun st => st.backends.map (fun b => (b.clusterAddress, b.exitCode)))
      = Except.ok [(none, none)] :=
  ⟨rfl, rfl⟩

/-- C6 amended: a successful `update_status` call with no address and no
exit code overwrites the matched backend's `cluster_address` and `exit_code`
with `NULL` (clearing any stored values), while updating `last_status` and
`last_status_time`, leaving the row's other fields intact, appending exactly
one row to the status log, and leaving the token table unchanged. -/
theorem update_status_clears_address (st : DBState) (backend : String)
    (status : BackendStatus) (now : Int) (row : BackendRow) (st' : DBState)
    (hfind : st.backends.find? (fun b => b.id == backend) = some row)
    (hok : update_status st backend status none none now = Except.ok st') :
    st'.backends.find? (fun b => b.id == backend)
      = some { row with
                lastStatus := status
                lastStatusTime := now
                clusterAddress := none
                exitCode := none }
    ∧ st'.backendStatus = st.backendStatus ++ [⟨st.nextStatusId, backend, status, now⟩]
    ∧ st'.tokens = st.tokens := by
  by_cases hlt : status < row.lastStatus
  · simp [update_status, hfind, hlt] at hok
  · simp [update_status, hfind, hlt] at hok
    subst hok
    refine ⟨?_, rfl, rfl⟩
    rw [find?_map_ite st.backends backend
      (fun b => { b with
        lastStatus := status
        lastStatusTime := now
        clusterAddress := none
        exitCode := none }) (fun _ => rfl), hfind]
    rfl

/-- The state produced by the witness call of C6's amended theorem. -/
def exStateAddrAfter : DBState :=
  ⟨[⟨"b", "c", .ready, 5, 0, 1, none, none, none, none⟩],
    [⟨1, "b", .scheduled, 0⟩, ⟨2, "b", .ready, 5⟩], [], [], 3⟩

/-! Claim C3. -/

/-- Helper: a successful `update_status` determines the resulting state: the
backend row was found, the transition was monotone, and the new state is the
one built by the transaction body. -/
theorem update_status_ok_elim (st : DBState) (backend : String)
    (status : BackendStatus) (address : Option String) (exitCode : Option Int)
    (now : Int) (st' : DBState)
    (hok : update_status st backend status address exitCode now = Except.ok st') :
    ∃ row, st.backends.find? (fun b => b.id == backend) = some row
      ∧ row.lastStatus ≤ status
      ∧ st' = { st with
          backends := st.backends.map (fun b =>
            if b.id == backend then
              { b with
                lastStatus := status
                lastStatusTime := now
                clusterAddress := address
                exitCode := exitCode }
            else b)
          backendStatus := st.backendStatus ++ [⟨st.nextStatusId, backend, status, now⟩]
          backendKeys :=
            if status == BackendStatus.terminated then
              st.backendKeys.filter (fun k => k.id != backend)
            else st.backendKeys
          nextStatusId := st.nextStatusId + 1 } := by
  unfold update_status at hok
  split at hok
  · simp at hok
  · rename_i row hfind
    split at hok
    · simp at hok
    · rename_i hlt
      injection hok with h
      exact ⟨row, hfind, BackendStatus.le_of_not_lt hlt, h.symm⟩

/-- The invariant of spec section 3: a `backend_key` row for a backend exists
iff that backend's `last_status` is not `Terminated`. -/
def keyInvariant (st : DBState) : Prop :=
  ∀ b ∈ st.backends,
    ((∃ k ∈ st.backendKeys, k.id = b.id) ↔ b.lastStatus ≠ BackendStatus.terminated)

instance (st : DBState) : Decidable (keyInvariant st) :=
  inferInstanceAs (Decidable (∀ b ∈ st.backends,
    ((∃ k ∈ st.backendKeys, k.id = b.id) ↔ b.lastStatus ≠ BackendStatus.terminated)))

/-- C3: a committed `update_status` to `Terminated` leaves no `backend_key`
row for that backend; a committed `update_status` with any other status
deletes no key row; and `update_status` preserves the invariant that a key
row exists iff the referenced backend is not terminated (backend ids are
unique, `backend.id` being the primary key). -/
theorem update_status_backend_key (st : DBState) (backend : String)
    (address : Option String) (exitCode : Option Int) (now : Int)
    (hnodup : (st.backends.map BackendRow.id).Nodup) :
    (∀ st', update_status st backend BackendStatus.terminated address exitCode now
        = Except.ok st' → ∀ k ∈ st'.backendKeys, k.id ≠ backend)
    ∧ (∀ status st', status ≠ BackendStatus.terminated →
        update_status st backend status address exitCode now = Except.ok st' →
        st'.backendKeys = st.backendKeys)
    ∧ (keyInvariant st → ∀ status st',
        update_status st backend status address exitCode now = Except.ok st' →
        keyInvariant st') := by
  refine ⟨?_, ?_, ?_⟩
  · intro st' hok k hk
    obtain ⟨row, hfind, hle, hst⟩ := update_status_ok_elim _ _ _ _ _ _ _ hok
    subst hst
    simp only [show (BackendStatus.terminated == BackendStatus.terminated) = true from rfl,
      if_true] at hk
    have := (List.mem_filter.mp hk).2
    simpa using this
  · intro status st' hstatus hok
    obtain ⟨row, hfind, hle, hst⟩ := update_status_ok_elim _ _ _ _ _ _ _ hok
    subst hst
    simp [hstatus]
  · intro hinv status st' hok b' hb'
    obtain ⟨row, hfind, hle, hst⟩ := update_status_ok_elim _ _ _ _ _ _ _ hok
    have hrowmem : row ∈ st.backends := List.mem_of_find?_eq_some hfind
    have hrowid : row.id = backend := by simpa using List.find?_some hfind
    subst hst
    simp only [List.mem_map] at hb'
    obtain ⟨b, hb, hgb⟩ := hb'
    by_cases hid : b.id = backend
    · have hbrow : b = row :=
        List.inj_on_of_nodup_map hnodup hb hrowmem (by rw [hid, hrowid])
      rw [if_pos (show (b.id == backend) = true by simp [hid])] at hgb
      subst hgb
      by_cases hterm : status = BackendStatus.terminated
      · subst hterm
        simp only [show (BackendStatus.terminated == BackendStatus.terminated) = true from rfl,
          if_true]
        constructor
        · rintro ⟨k, hk, hkid⟩
          have hkb : k.id ≠ backend := by simpa using (List.mem_filter.mp hk).2
          exact absurd (hkid.trans hid) hkb
        · intro hne
          exact absurd rfl hne
      · simp only [show (status == BackendStatus.terminated) = false by simpa using hterm,
          Bool.false_eq_true, if_false]
        have hrow : row.lastStatus ≠ BackendStatus.terminated := by
          intro h
          exact hterm (BackendStatus.eq_terminated_of_ge (h ▸ hle))
        obtain ⟨k, hk, hkid⟩ := (hinv row hrowmem).mpr hrow
        constructor
        · intro _
          exact hterm
        · intro _
          exact ⟨k, hk, by rw [hkid, hbrow]⟩
    · rw [if_neg (show ¬ (b.id == backend) = true by simp [hid])] at hgb
      subst hgb
      by_cases hterm : status = BackendStatus.terminated
      · subst hterm
        simp only [show (BackendStatus.terminated == BackendStatus.terminated) = true from rfl,
          if_true]
        constructor
        · rintro ⟨k, hk, hkid⟩
          exact (hinv b hb).mp ⟨k, (List.mem_filter.mp hk).1, hkid⟩
        · intro hbs
          obtain ⟨k, hk, hkid⟩ := (hinv b hb).mpr hbs
          refine ⟨k, List.mem_filter.mpr ⟨hk, ?_⟩, hkid⟩
          simpa using hkid.trans_ne hid
      · simp only [show (status == BackendStatus.terminated) = false by simpa using hterm,
          Bool.false_eq_true, if_false]
        exact hinv b hb

/-- A key row whose `id` is the backend `"b"`. -/
def exKeyRow : BackendKeyRow := ⟨"b", "c", "ns", "n", "t"⟩

/-- A store holding backend `"b"` together with its key row. -/
def exStateKey : DBState := ⟨[exRowB], [⟨1, "b", .scheduled, 0⟩], [exKeyRow], [], 2⟩

/-- The state after terminating backend `"b"` in `exStateKey`: the key row is
deleted. -/
def exStateKeyAfter : DBState :=
  ⟨[⟨"b", "c", .terminated, 7, 0, 1, none, none, none, none⟩],
    [⟨1, "b", .scheduled, 0⟩, ⟨2, "b", .terminated, 7⟩], [], [], 3⟩

/-- Witness for C3: terminating backend `"b"` in a store satisfying the key
invariant yields a store that still satisfies it (the key row is gone and the
backend is terminated). -/
theorem update_status_backend_key_witness : keyInvariant exStateKeyAfter :=
  (update_status_backend_key exStateKey "b" none none 7 (by decide)).2.2
    (by decide) BackendStatus.terminated exStateKeyAfter rfl

/-- Witness for the amended C6 at a concrete store. -/
theorem update_status_clears_address_witness :
    exStateAddrAfter.backends.find? (fun b => b.id == "b")
      = some { exRowAddr with
                lastStatus := BackendStatus.ready
                lastStatusTime := 5
                clusterAddress := none
                exitCode := none }
    ∧ exStateAddrAfter.backendStatus
        = exStateAddr.backendStatus ++ [⟨exStateAddr.nextStatusId, "b", BackendStatus.ready, 5⟩]
    ∧ exStateAddrAfter.tokens = exStateAddr.tokens :=
  update_status_clears_address exStateAddr "b" BackendStatus.ready 5 exRowAddr
    exStateAddrAfter rfl rfl

/-! Claim C7. -/

/-- C7: `route_info_for_token` returns `None` — without erroring, the
function being total — exactly when the token is unknown, the joined backend
row has no `cluster_address` (including the case where the left join matched
no backend), or the stored address fails to parse; otherwise it returns the
route info carrying the token row's `backend_id`, the parsed address, the
`secret_token`, the username and the auth blob. -/
theorem route_info_for_token_spec (Addr : Type) (parse : String → Option Addr)
    (st : DBState) (tok : String) :
    (route_info_for_token Addr parse st tok = none ↔
      st.tokens.find? (fun t => t.token == tok) = none
      ∨ ∃ t, st.tokens.find? (fun tr => tr.token == tok) = some t
          ∧ ((st.backends.find? (fun b => b.id == t.backendId)).bind
                (fun b => b.clusterAddress) = none
            ∨ ∃ a, (st.backends.find? (fun b => b.id == t.backendId)).bind
                  (fun b => b.clusterAddress) = some a
                ∧ parse a = none))
    ∧ (∀ t a addr,
        st.tokens.find? (fun tr => tr.token == tok) = some t →
        (st.backends.find? (fun b => b.id == t.backendId)).bind
            (fun b => b.clusterAddress) = some a →
        parse a = some addr →
        route_info_for_token Addr parse st tok
          = some ⟨t.backendId, addr, t.secretToken, t.username, some t.auth⟩) := by
  constructor
  · cases htok : st.tokens.find? (fun t => t.token == tok) with
    | none => simp [route_info_for_token, htok]
    | some t =>
      cases haddr : (st.backends.find? (fun b => b.id == t.backendId)).bind
          (fun b => b.clusterAddress) with
      | none =>
        simp [route_info_for_token, htok, haddr]
        intro a ha
        rw [ha] at haddr
        simpa using haddr
      | some a =>
        cases hp : parse a with
        | none => simp [route_info_for_token, htok, haddr, hp]
        | some addr =>
          simp [route_info_for_token, htok, haddr, hp]
          obtain ⟨b, hb1, hb2⟩ := Option.bind_eq_some.mp haddr
          exact ⟨b, hb1, by rw [hb2]; simp⟩
  · intro t a addr h1 h2 h3
    simp [route_info_for_token, h1, h2, h3]

/-- A token row bound to backend `"b"`. -/
def exTokenRow : TokenRow := ⟨"tok", "b", some "alice", "authblob", "sek"⟩

/-- A store with backend `"b"` (address on record) and one token. -/
def exStateTok : DBState :=
  ⟨[exRowAddr], [⟨1, "b", .scheduled, 0⟩], [], [exTokenRow], 2⟩

/-- A toy address parser accepting exactly the stored address. -/
def exParse : String → Option Nat :=
  fun s => if s = "1.2.3.4:80" then some 42 else none

/-- Witness for C7: the stored token resolves to the full route info. -/
theorem route_info_for_token_spec_witness :
    route_info_for_token Nat exParse exStateTok "tok"
      = some ⟨"b", 42, "sek", some "alice", some "authblob"⟩ :=
  (route_info_for_token_spec Nat exParse exStateTok "tok").2
    exTokenRow "1.2.3.4:80" 42 rfl rfl rfl

/-! Claim C8. -/

/-- Helper: the SQL idle-or-expired condition holds iff one of the two
columns is non-NULL and its comparison is true. -/
theorem shouldTerminate_iff (b : BackendRow) (now : Int) :
    shouldTerminate b now = true ↔
      (∃ s, b.allowedIdleSeconds = some s ∧ s < now - b.lastKeepalive)
      ∨ (∃ t, b.expirationTime = some t ∧ t < now) := by
  unfold shouldTerminate
  cases h1 : b.allowedIdleSeconds with
  | none =>
    cases h2 : b.expirationTime with
    | none => simp
    | some t => simp
  | some s =>
    cases h2 : b.expirationTime with
    | none => simp
    | some t => simp

/-- C8: `termination_candidates` returns exactly the backends of the given
drone whose `last_status` is not `Terminated` and which are idle beyond
`allowed_idle_seconds` or past `expiration_time`, each candidate carrying the
backend's columns and the `as_of` clock read by the same query. -/
theorem termination_candidates_spec (st : DBState) (droneId now : Int)
    (c : TerminationCandidate) :
    c ∈ termination_candidates st droneId now ↔
      ∃ b, b ∈ st.backends
        ∧ b.droneId = droneId
        ∧ b.lastStatus ≠ BackendStatus.terminated
        ∧ ((∃ s, b.allowedIdleSeconds = some s ∧ s < now - b.lastKeepalive)
            ∨ (∃ t, b.expirationTime = some t ∧ t < now))
        ∧ c = ⟨b.id, b.expirationTime, b.lastKeepalive, b.allowedIdleSeconds, now⟩ := by
  unfold termination_candidates
  simp only [List.mem_map, List.mem_filter, Bool.and_eq_true, beq_iff_eq, bne_iff_ne,
    shouldTerminate_iff]
  constructor
  · rintro ⟨b, ⟨hb, ⟨hdrone, hterm⟩, hcond⟩, rfl⟩
    exact ⟨b, hb, hdrone, hterm, hcond, rfl⟩
  · rintro ⟨b, hb, hdrone, hterm, hcond, rfl⟩
    exact ⟨b, ⟨hb, ⟨hdrone, hterm⟩, hcond⟩, rfl⟩

/-! Claim C9. -/

/-- C9: `update_keepalive` sets the matched backend's `last_keepalive` to the
current time, touching nothing else, and succeeds when the backend exists; it
fails with the not-found error exactly when no row matches (zero rows
affected), in which case the state is unchanged. -/
theorem update_keepalive_spec (st : DBState) (backend : String) (now : Int) :
    ((∃ b ∈ st.backends, b.id = backend) →
      update_keepalive st backend now = Except.ok { st with
        backends := st.backends.map (fun b =>
          if b.id == backend then { b with lastKeepalive := now } else b) })
    ∧ ((∀ b ∈ st.backends, b.id ≠ backend) →
      update_keepalive st backend now = Except.error DbError.rowNotFound) := by
  constructor
  · rintro ⟨b, hb, hid⟩
    have hany : st.backends.any (fun b => b.id == backend) = true :=
      List.any_eq_true.mpr ⟨b, hb, by simp [hid]⟩
    simp [update_keepalive, hany]
  · intro h
    have hany : st.backends.any (fun b => b.id == backend) = false :=
      List.any_eq_false.mpr (fun b hb => by simp [h b hb])
    simp [update_keepalive, hany]

/-- Witness for C9: a keepalive on the only backend of `exState0` commits the
new `last_keepalive`. -/
theorem update_keepalive_spec_witness :
    update_keepalive exState0 "b" 9 = Except.ok { exState0 with
      backends := exState0.backends.map (fun b =>
        if b.id == "b" then { b with lastKeepalive := 9 } else b) } :=
  (update_keepalive_spec exState0 "b" 9).1 ⟨exRowB, by decide, rfl⟩

/-! Claim C10. -/

/-- Helper: with both `allowed_idle_seconds` and `expiration_time` NULL the
idle-or-expired condition is SQL-unknown, so the row is not selected. -/
theorem shouldTerminate_none_none (b : BackendRow) (now : Int)
    (h1 : b.allowedIdleSeconds = none) (h2 : b.expirationTime = none) :
    shouldTerminate b now = false := by
  unfold shouldTerminate
  rw [h1, h2]
  rfl

/-- C10: a backend whose `allowed_idle_seconds` and `expiration_time` are
both NULL is never returned by `termination_candidates`, regardless of the
clock and of how old its `last_keepalive` is. -/
theorem termination_candidates_null_immune (st : DBState) (droneId now : Int)
    (name : String)
    (h : ∀ b ∈ st.backends, b.id = name →
        b.allowedIdleSeconds = none ∧ b.expirationTime = none) :
    ∀ c ∈ termination_candidates st droneId now, c.backendId ≠ name := by
  intro c hc
  unfold termination_candidates at hc
  simp only [List.mem_map, List.mem_filter, Bool.and_eq_true] at hc
  obtain ⟨b, ⟨hb, ⟨_, _⟩, hcond⟩, hgc⟩ := hc
  intro hcn
  have hbid : b.id = name := by
    rw [← hgc] at hcn
    exact hcn
  obtain ⟨h1, h2⟩ := h b hb hbid
  rw [shouldTerminate_none_none b now h1 h2] at hcond
  cases hcond

/-- A second backend on the same drone that is idle beyond its limit. -/
def exRowZ : BackendRow := ⟨"z", "c", .ready, 0, 0, 1, none, some 1, none, none⟩

/-- A store mixing a never-terminable backend `"b"` (both limits NULL) with
the idle backend `"z"`. -/
def exStateMix : DBState := ⟨[exRowB, exRowZ], [], [], [], 1⟩

/-- Witness for C10: the sweep at time 100 does select `"z"`, and that
candidate is not `"b"`, whose limits are NULL. -/
theorem termination_candidates_null_immune_witness :
    TerminationCandidate.mk "z" none 0 (some 1) 100
        ∈ termination_candidates exStateMix 1 100
    ∧ (TerminationCandidate.mk "z" none 0 (some 1) 100).backendId ≠ "b" :=
  ⟨by decide,
    termination_candidates_null_immune exStateMix 1 100 "b" (by decide) _ (by decide)⟩

/-! Stream lemmas shared by claims C4 and C5. -/

/-- The statuses yielded by the historical loop are the snapshot's statuses. -/
theorem streamHistory_statuses (snapshot : List StatusRow) :
    (streamHistory snapshot).map TimestampedBackendStatus.status
      = snapshot.map StatusRow.status := by
  unfold streamHistory
  rw [List.map_map]
  rfl

/-- With an empty snapshot the live loop yields every event. -/
theorem streamLive_statuses_none (events : List LiveEvent) :
    (streamLive none events).map TimestampedBackendStatus.status
      = events.map LiveEvent.payload := by
  unfold streamLive
  rw [List.map_map]
  rfl

/-- With a nonempty snapshot the live loop yields exactly the events whose
payload exceeds the last snapshot status. -/
theorem streamLive_statuses_some (ls : BackendStatus) (events : List LiveEvent) :
    (streamLive (some ls) events).map TimestampedBackendStatus.status
      = (events.filter (fun e => !(decide (e.payload ≤ ls)))).map LiveEvent.payload := by
  unfold streamLive
  rw [List.map_map]
  rfl

theorem BackendStatus.le_of_not_le {a b : BackendStatus} (h : ¬ a ≤ b) : b ≤ a :=
  Nat.le_of_lt (Nat.not_le.mp h)

/-- Every member of a `≤`-sorted status list is at most its last element. -/
theorem le_getLast?_of_pairwise {l : List BackendStatus} {x m : BackendStatus}
    (hp : l.Pairwise (fun a b => a ≤ b)) (hx : x ∈ l) (hm : l.getLast? = some m) :
    x ≤ m := by
  induction l with
  | nil => cases hx
  | cons a t ih =>
    cases t with
    | nil =>
      simp at hx hm
      subst hx
      rw [← hm]
      exact BackendStatus.le_refl x
    | cons b t2 =>
      rw [List.getLast?_cons_cons] at hm
      rcases List.mem_cons.mp hx with hxa | hxt
      · subst hxa
        have hmm : m ∈ b :: t2 := by
          obtain ⟨hne, heq⟩ :=
            List.mem_getLast?_eq_getLast (show m ∈ (b :: t2).getLast? from hm)
          rw [heq]
          exact List.getLast_mem hne
        exact List.rel_of_pairwise_cons hp hmm
      · exact ih hp.of_cons hxt hm

/-- When the snapshot statuses and the live payloads are each non-decreasing
(which the monotone status log and the commit-ordered bus guarantee), the
statuses yielded by the whole stream are non-decreasing. -/
theorem status_stream_statuses_pairwise (st : DBState) (backend : String)
    (live : List LiveEvent)
    (hh : ((statusSnapshot st backend).map StatusRow.status).Pairwise (fun a b => a ≤ b))
    (hl : (live.map LiveEvent.payload).Pairwise (fun a b => a ≤ b)) :
    ((status_stream st backend live).map TimestampedBackendStatus.status).Pairwise
      (fun a b => a ≤ b) := by
  unfold status_stream
  rw [List.map_append, List.pairwise_append]
  refine ⟨by rw [streamHistory_statuses]; exact hh, ?_, ?_⟩
  · cases hls : lastStatusAfterHistory (statusSnapshot st backend) with
    | none =>
      rw [streamLive_statuses_none]
      exact hl
    | some ls =>
      rw [streamLive_statuses_some]
      exact List.Pairwise.sublist ((List.filter_sublist _).map _) hl
  · intro x hx y hy
    rw [streamHistory_statuses] at hx
    cases hls : lastStatusAfterHistory (statusSnapshot st backend) with
    | none =>
      have hemp : (statusSnapshot st backend).map StatusRow.status = [] :=
        List.getLast?_eq_none_iff.mp hls
      rw [hemp] at hx
      cases hx
    | some ls =>
      rw [hls, streamLive_statuses_some] at hy
      obtain ⟨e, he, hes⟩ := List.mem_map.mp hy
      have hef : ¬ e.payload ≤ ls := by simpa using (List.mem_filter.mp he).2
      have hxls : x ≤ ls := le_getLast?_of_pairwise hh hx hls
      exact BackendStatus.le_trans hxls (hes ▸ BackendStatus.le_of_not_le hef)

/-! Claim C4. -/

/-- C4 counterexample: starting from `exState0` (backend `"b"` in status
`Scheduled`), two successive `update_status` calls to `Terminated` both
commit — equal statuses do not violate monotonicity — and the stream then
yields `Terminated` and, after it, a further item (the second `Terminated`
row of the log), so the stream does yield items after a `Terminated` item. -/
theorem status_stream_c4_counterexample :
    ((update_status exState0 "b" BackendStatus.terminated none none 5).bind
        (fun st => update_status st "b" BackendStatus.terminated none none 6)).map
      (fun st => (status_stream st "b" []).map TimestampedBackendStatus.status)
      = Except.ok [BackendStatus.scheduled, BackendStatus.terminated,
          BackendStatus.terminated] := rfl

/-- C4 amended: when the snapshot statuses and live payloads are
non-decreasing, every item the stream yields after an item with status
`Terminated` itself has status `Terminated`.  Further items can occur — the
log may contain repeated `Terminated` rows and the subscription may deliver
duplicate `Terminated` events, each of which is yielded, since the
comparison value `last_status` is never updated in the live loop — so the
stream need not stop at the first `Terminated` item, and the generator has
no termination condition. -/
theorem status_stream_terminated_no_further (st : DBState) (backend : String)
    (live : List LiveEvent) (i j : Nat)
    (hh : ((statusSnapshot st backend).map StatusRow.status).Pairwise (fun a b => a ≤ b))
    (hl : (live.map LiveEvent.payload).Pairwise (fun a b => a ≤ b))
    (hij : i < j) (hj : j < (status_stream st backend live).length)
    (hterm : ((status_stream st backend live).getD i ⟨0, BackendStatus.scheduled⟩).status
      = BackendStatus.terminated) :
    ((status_stream st backend live).getD j ⟨0, BackendStatus.scheduled⟩).status
      = BackendStatus.terminated := by
  have hp := status_stream_statuses_pairwise st backend live hh hl
  rw [List.pairwise_iff_getElem] at hp
  have hi : i < (status_stream st backend live).length := Nat.lt_trans hij hj
  have h := hp i j (by simpa using hi) (by simpa using hj) hij
  rw [List.getElem_map, List.getElem_map] at h
  rw [List.getD_eq_getElem _ _ hi] at hterm
  rw [List.getD_eq_getElem _ _ hj]
  exact BackendStatus.eq_terminated_of_ge (hterm ▸ h)

/-- The store after the two terminations of the C4 counterexample: its log
holds `Scheduled`, `Terminated`, `Terminated`. -/
def exTermSnapState : DBState :=
  ⟨[⟨"b", "c", .terminated, 6, 0, 1, none, none, none, none⟩],
    [⟨1, "b", .scheduled, 0⟩, ⟨2, "b", .terminated, 5⟩, ⟨3, "b", .terminated, 6⟩],
    [], [], 4⟩

/-- Witness for the amended C4: in the stream of `exTermSnapState`, the item
after the first `Terminated` again has status `Terminated`. -/
theorem status_stream_terminated_no_further_witness :
    ((status_stream exTermSnapState "b" []).getD 2 ⟨0, BackendStatus.scheduled⟩).status
      = BackendStatus.terminated :=
  status_stream_terminated_no_further exTermSnapState "b" [] 1 2
    (by decide) (by decide) (by decide) (by decide) (by decide)

/-! Claim C5. -/

/-- C5 counterexample: with snapshot `[Scheduled]` and live events
`Ready, Ready`, the stream yields `Ready` twice — the second live event is
yielded although its status is not strictly greater than the last yielded
status (`Ready`): the generator compares live events against the last
snapshot status only, never updating it. -/
theorem status_stream_c5_counterexample :
    (status_stream exState0 "b" [⟨1, BackendStatus.ready⟩, ⟨2, BackendStatus.ready⟩]).map
      TimestampedBackendStatus.status
      = [BackendStatus.scheduled, BackendStatus.ready, BackendStatus.ready] := rfl

/-- C5 amended: the stream is the snapshot part followed by the live part;
the snapshot rows are yielded in increasing `id` order; and a live event is
yielded only if its status is strictly greater than the status of the last
snapshot row, so — when the snapshot statuses are non-decreasing — no status
is yielded both in the snapshot part and in the live part (live statuses may
still repeat within the live part). -/
theorem status_stream_boundary (st : DBState) (backend : String)
    (live : List LiveEvent)
    (hh : ((statusSnapshot st backend).map StatusRow.status).Pairwise (fun a b => a ≤ b)) :
    status_stream st backend live
      = streamHistory (statusSnapshot st backend)
        ++ streamLive (lastStatusAfterHistory (statusSnapshot st backend)) live
    ∧ ((statusSnapshot st backend).map StatusRow.id).Pairwise (fun a b => a ≤ b)
    ∧ ∀ s ∈ (streamHistory (statusSnapshot st backend)).map TimestampedBackendStatus.status,
        s ∉ (streamLive (lastStatusAfterHistory (statusSnapshot st backend)) live).map
            TimestampedBackendStatus.status := by
  refine ⟨rfl, ?_, ?_⟩
  · have hs : List.Sorted rowIdLe (statusSnapshot st backend) :=
      List.sorted_insertionSort rowIdLe _
    exact hs.map StatusRow.id (fun a b h => h)
  · intro s hs hy
    rw [streamHistory_statuses] at hs
    cases hls : lastStatusAfterHistory (statusSnapshot st backend) with
    | none =>
      have hemp : (statusSnapshot st backend).map StatusRow.status = [] :=
        List.getLast?_eq_none_iff.mp hls
      rw [hemp] at hs
      cases hs
    | some ls =>
      rw [hls, streamLive_statuses_some] at hy
      obtain ⟨e, he, hes⟩ := List.mem_map.mp hy
      have hef : ¬ e.payload ≤ ls := by simpa using (List.mem_filter.mp he).2
      have hsls : s ≤ ls := le_getLast?_of_pairwise hh hs hls
      rw [← hes] at hsls
      exact hef hsls

/-- Witness for the amended C5: with snapshot `[Scheduled]` and one live
`Ready` event, the snapshot status `Scheduled` is not yielded again by the
live part. -/
theorem status_stream_boundary_witness :
    BackendStatus.scheduled
        ∈ (streamHistory (statusSnapshot exState0 "b")).map TimestampedBackendStatus.status
    ∧ BackendStatus.scheduled
        ∉ (streamLive (lastStatusAfterHistory (statusSnapshot exState0 "b"))
            [⟨1, BackendStatus.ready⟩]).map TimestampedBackendStatus.status :=
  ⟨by decide,
    (status_stream_boundary exState0 "b" [⟨1, BackendStatus.ready⟩] (by decide)).2.2
      BackendStatus.scheduled (by decide)⟩

end Plane
